import Mathlib

/-!
# Verification of the expense-storage core

Shallow embedding of the storage layer of the repository (package
`storage` in `src/internal/storage/storage.go`, `databaseStore.go`, and the
JSON store file, plus the recurring-expense handler of package `api` in
`src/internal/api/import-export.go`) together with proofs settling the
frozen claims about it.

Conventions of the embedding:
* Go `time.Time` values are represented by their civil fields
  (year/month/day, possibly unnormalized, exactly as `AddDate` produces
  them) plus a time-of-day component; the absolute instant used by
  `Before`/`After` is computed by the same proleptic-Gregorian roll-up that
  `time.Date` performs.
* Go `float64` amounts are represented by `Rat`; the storage layer only
  copies amounts around and compares them to zero, so no floating-point
  rounding behavior is observable in the embedded operations.
* `uuid.New().String()` is represented by explicit fresh-identifier
  parameters (`fresh`, `freshIds`): the store draws identifiers from an
  external supply.
* `time.Now()` is represented by an explicit `now`/`today` parameter taken
  once per operation, exactly where the Go code calls it.
-/

namespace ExpenseOwl

/-! ## Time model (Go `time.Time` as used by the storage layer) -/

/-- A Go `time.Time` restricted to what the storage layer observes: the
civil date fields and a time-of-day offset (in nanoseconds).  The fields
may be out of range (e.g. month 13); like Go's `time.Date`, the
normalization happens when the absolute instant is computed. -/
structure GoTime where
  year : Int
  month : Int
  day : Int
  tod : Int
  deriving DecidableEq, Repr

/-- Go's leap-year rule (`isLeap` in `time/time.go`):
`year%4 == 0 && (year%100 != 0 || year%400 == 0)`. -/
def isLeap (y : Int) : Bool :=
  y % 4 == 0 && (y % 100 != 0 || y % 400 == 0)

/-- Days in the years before year `y` (proleptic Gregorian, counted from
year 1, as in Go's absolute-time computation). -/
def daysBeforeYear (y : Int) : Int :=
  365 * (y - 1) + (y - 1).fdiv 4 - (y - 1).fdiv 100 + (y - 1).fdiv 400

/-- Cumulative day counts before each month of a non-leap year
(Go's `daysBefore` array), indexed 0 = January. -/
def daysBeforeMonth : Nat → Int
  | 0 => 0
  | 1 => 31
  | 2 => 59
  | 3 => 90
  | 4 => 120
  | 5 => 151
  | 6 => 181
  | 7 => 212
  | 8 => 243
  | 9 => 273
  | 10 => 304
  | 11 => 334
  | _ => 0

/-- Days before the first day of month `m` of year `y` (both possibly
unnormalized; Go's `norm(year, month-1, 12)` followed by the cumulative
month table with the leap adjustment for months after February). -/
def monthOrd (y m : Int) : Int :=
  let a := m - 1
  let y1 := y + a.fdiv 12
  let m1 := (a.fmod 12).toNat
  daysBeforeYear y1 + daysBeforeMonth m1 +
    (if isLeap y1 && decide (2 ≤ m1) then 1 else 0)

/-- Nanoseconds per day. -/
def nsPerDay : Int := 86400000000000

/-- The absolute instant of a `GoTime` (what Go's monotonic-free
`Before`/`After`/`Equal` compare). -/
def GoTime.instant (t : GoTime) : Int :=
  (monthOrd t.year t.month + (t.day - 1)) * nsPerDay + t.tod

/-- Go `t.Before(u)`. -/
def GoTime.before (t u : GoTime) : Bool := decide (t.instant < u.instant)

/-- Go `t.After(u)`. -/
def GoTime.after (t u : GoTime) : Bool := decide (u.instant < t.instant)

/-- Go `t.IsZero()`: the zero time is January 1, year 1, 00:00 UTC. -/
def GoTime.isZero (t : GoTime) : Bool :=
  t.instant == (GoTime.mk 1 1 1 0).instant

/-- Go `t.AddDate(years, months, days)`: add to the civil fields, leaving
normalization to the instant computation (as `time.Date` does). -/
def GoTime.addDate (t : GoTime) (y m d : Int) : GoTime :=
  ⟨t.year + y, t.month + m, t.day + d, t.tod⟩

/-! ## Record model (`storage.go`) -/

/-- `storage.Expense`. -/
structure Expense where
  id : String
  recurringID : String
  name : String
  tags : List String
  category : String
  amount : Rat
  currency : String
  date : GoTime
  deriving DecidableEq, Repr

/-- `storage.RecurringExpense`. -/
structure RecurringExpense where
  id : String
  name : String
  amount : Rat
  currency : String
  tags : List String
  category : String
  startDate : GoTime
  interval : String
  occurrences : Int
  deriving DecidableEq, Repr

/-- `storage.Config`. -/
structure Config where
  categories : List String
  currency : String
  startDate : Int
  recurringExpenses : List RecurringExpense
  deriving DecidableEq, Repr

/-- `storage.defaultCategories`. -/
def defaultCategories : List String :=
  ["Food", "Groceries", "Travel", "Rent", "Utilities", "Entertainment",
   "Healthcare", "Shopping", "Miscellaneous", "Income"]

/-- `storage.SupportedCurrencies`. -/
def supportedCurrencies : List String :=
  ["usd", "eur", "gbp", "jpy", "cny", "krw", "inr", "rub", "brl", "zar",
   "aed", "aud", "cad", "chf", "hkd", "bdt", "sgd", "thb", "try", "mxn",
   "php", "pln", "sek", "nzd", "dkk", "idr", "ils", "vnd", "myr"]

/-- `Config.SetBaseConfig`. -/
def Config.setBaseConfig : Config :=
  { categories := defaultCategories
    currency := "usd"
    startDate := 1
    recurringExpenses := [] }

/-! ## Sanitization and validation (`storage.go`)

`SanitizeString` replaces every character outside
`\p{L}\p{N}\s.,-'_!"` with a space, collapses whitespace runs to a single
space, and trims.  The embedding uses Lean's ASCII character classes for
the Unicode classes; on ASCII strings the two agree. -/

/-- A character the regex `REInvalidChars` keeps (letter, digit,
whitespace, or one of `. , - ' _ ! "`). -/
def validChar (c : Char) : Bool :=
  c.isAlpha || c.isDigit || c.isWhitespace ||
    ['.', ',', '-', '_', '!', Char.ofNat 39, Char.ofNat 34].contains c

/-- Collapse runs of whitespace into a single space (the
`RERepeatingSpaces` replacement); the flag records whether the previous
kept character was a space. -/
def collapseWS : List Char → Bool → List Char
  | [], _ => []
  | c :: rest, prev =>
    if c.isWhitespace then
      if prev then collapseWS rest true else ' ' :: collapseWS rest true
    else c :: collapseWS rest false

/-- `storage.SanitizeString`. -/
def sanitizeString (s : String) : String :=
  let replaced := s.data.map (fun c => if validChar c then c else ' ')
  let collapsed := collapseWS replaced false
  String.mk (((collapsed.dropWhile (· == ' ')).reverse.dropWhile (· == ' ')).reverse)

/-- The recognized interval tags (`validIntervals` in
`RecurringExpense.Validate`). -/
def validInterval (s : String) : Bool :=
  s == "daily" || s == "weekly" || s == "monthly" || s == "yearly"

/-- `RecurringExpense.Validate`: sanitizes the name and tags and rejects
empty name/category, fewer than 2 occurrences, a zero start date, or an
unrecognized interval.  Returns the (sanitized) rule on success. -/
def RecurringExpense.validate (e : RecurringExpense) : Except String RecurringExpense :=
  let name := sanitizeString e.name
  if name == "" then
    .error "recurring expense name cannot be empty"
  else if e.category == "" then
    .error "recurring expense category cannot be empty"
  else
    let tags :=
      if 0 < e.tags.length then (e.tags.map sanitizeString).filter (fun t => t != "")
      else e.tags
    if e.occurrences < 2 then
      .error "at least 2 occurences required to recur"
    else if e.startDate.isZero then
      .error "start date for recurring expense must be specified"
    else if !validInterval e.interval then
      .error "invalid interval"
    else
      .ok { e with name := name, tags := tags }

/-! ## Recurrence engine (`generateExpensesFromRecurring`,
`databaseStore.go` lines 523-578) -/

/-- One step of the interval switch: `daily` +1 day, `weekly` +7 days,
`monthly` +1 calendar month, `yearly` +1 calendar year; `none` is the
`default:` branch for an unrecognized interval. -/
def stepDate (interval : String) (d : GoTime) : Option GoTime :=
  if interval == "daily" then some (d.addDate 0 0 1)
  else if interval == "weekly" then some (d.addDate 0 0 7)
  else if interval == "monthly" then some (d.addDate 0 1 0)
  else if interval == "yearly" then some (d.addDate 1 0 0)
  else none

/-- The step with identity as the (unreachable under a valid interval)
fallback; used to phrase date sequences. -/
def stepDateD (interval : String) (d : GoTime) : GoTime :=
  (stepDate interval d).getD d

/-- The date of the `k`-th occurrence counted from `d`. -/
def iterDate (interval : String) (d : GoTime) : Nat → GoTime
  | 0 => d
  | k + 1 => iterDate interval (stepDateD interval d) k

/-- The `fromToday` fast-forward loop: while the cursor is before `today`
and the remaining budget is positive, step the cursor and decrement the
budget.  The budget doubles as fuel (the Go loop decrements
`occurrencesToGenerate` on every iteration when `Occurrences > 0`).
`none` models the `default:` early return on an unrecognized interval
(at which point nothing has been emitted). -/
def ffLoop (interval : String) (today : GoTime) : Nat → GoTime → Option (GoTime × Nat)
  | 0, cur => some (cur, 0)
  | b + 1, cur =>
    if cur.before today then
      match stepDate interval cur with
      | none => none
      | some cur2 => ffLoop interval today b cur2
    else some (cur, b + 1)

/-- The number of steps the fast-forward loop actually takes. -/
def ffSteps (interval : String) (today : GoTime) : Nat → GoTime → Nat
  | 0, _ => 0
  | b + 1, cur =>
    if cur.before today then
      match stepDate interval cur with
      | none => 0
      | some cur2 => ffSteps interval today b cur2 + 1
    else 0

/-- The emission loop (`for range limit`): emit an expense at the cursor,
then step; the `default:` branch of the switch returns what was already
produced.  `k` indexes the fresh-identifier supply. -/
def emitLoop (freshIds : Nat → String) (recExp : RecurringExpense) :
    GoTime → Nat → Nat → List Expense
  | _, _, 0 => []
  | cur, k, n + 1 =>
    let expense : Expense :=
      { id := freshIds k
        recurringID := recExp.id
        name := recExp.name
        category := recExp.category
        amount := recExp.amount
        currency := recExp.currency
        date := cur
        tags := recExp.tags }
    match stepDate recExp.interval cur with
    | none => [expense]
    | some cur2 => expense :: emitLoop freshIds recExp cur2 (k + 1) n

/-- `generateExpensesFromRecurring(recExp, fromToday)`.
`today` is the `time.Now()` captured at the start of the call and
`freshIds` the `uuid.New()` supply.  A rule with `Occurrences == 0`
produces no expenses on every path of the Go function (the fast-forward
loop, when it runs, leaves the budget at 0 and `limit` is 0), and a
negative occurrence count makes both loops run zero times. -/
def generateExpensesFromRecurring (freshIds : Nat → String) (today : GoTime)
    (recExp : RecurringExpense) (fromToday : Bool) : List Expense :=
  if fromToday then
    if recExp.occurrences == 0 then []
    else
      match ffLoop recExp.interval today recExp.occurrences.toNat recExp.startDate with
      | none => []
      | some (cur, budget) => emitLoop freshIds recExp cur 0 budget
  else
    emitLoop freshIds recExp recExp.startDate 0 recExp.occurrences.toNat

/-! ## File-backed store (`jsonStore`)

State of a `jsonStore` instance: the two on-disk documents (the expense
collection and the config-plus-rules document) and the in-memory
`defaults` map.  The operations below are the read-document →
mutate-in-memory → write-document cycles of the Go methods with the file
reads and writes succeeding; the failure behavior that claim C10 is about
is modelled separately with explicit substrate outcomes. -/

/-- The `defaults` map (`map[string]string` with keys `currency` and
`start_date`); a missing key reads as `""`, as a Go map lookup does. -/
structure Defaults where
  currency : String := ""
  start_date : String := ""
  deriving DecidableEq, Repr

/-- State of a `jsonStore`: `expenses.json`, `config.json`, `defaults`. -/
structure JsonState where
  expenses : List Expense
  config : Config
  defaults : Defaults
  deriving DecidableEq, Repr

/-- The state right after `InitializeJsonStore` on an empty directory. -/
def jsonInitialState : JsonState :=
  { expenses := [], config := Config.setBaseConfig, defaults := {} }

/-- `jsonStore.GetAllExpenses`: the expense document in stored order. -/
def jsonGetAllExpenses (st : JsonState) : List Expense :=
  st.expenses

/-- `jsonStore.GetExpense`: first expense with the identifier, else a
not-found error. -/
def jsonGetExpense (st : JsonState) (id : String) : Except String Expense :=
  match st.expenses.find? (fun e => e.id == id) with
  | some e => .ok e
  | none => .error ("expense with ID " ++ id ++ " not found")

/-- `jsonStore.AddExpense`: fill identifier/currency/date defaults when
empty (zero for the date), then append.  `fresh` is the `uuid.New()`
value, `now` the `time.Now()` of the call. -/
def jsonAddExpense (fresh : String) (now : GoTime) (st : JsonState)
    (expense : Expense) : JsonState :=
  let expense := if expense.id == "" then { expense with id := fresh } else expense
  let expense :=
    if expense.currency == "" then { expense with currency := st.defaults.currency }
    else expense
  let expense := if expense.date.isZero then { expense with date := now } else expense
  { st with expenses := st.expenses ++ [expense] }

/-- `jsonStore.GetRecurringExpense`: first rule with the identifier, else
a not-found error. -/
def jsonGetRecurringExpense (st : JsonState) (id : String) :
    Except String RecurringExpense :=
  match st.config.recurringExpenses.find? (fun r => r.id == id) with
  | some r => .ok r
  | none => .error ("recurring expense with ID " ++ id ++ " not found")

/-- The identifier/currency defaulting `AddRecurringExpense` performs on
a rule before persisting it (both stores share this logic). -/
def applyRuleDefaults (freshRuleId : String) (defaults : Defaults)
    (r : RecurringExpense) : RecurringExpense :=
  let r := if r.id == "" then { r with id := freshRuleId } else r
  if r.currency == "" then { r with currency := defaults.currency } else r

/-- `jsonStore.AddRecurringExpense`: default the rule's id/currency,
append it to the config document, then materialize the full run via
`generateExpensesFromRecurring(rule, false)` and append those records
(`AddMultipleExpenses`). -/
def jsonAddRecurringExpense (freshRuleId : String) (freshIds : Nat → String)
    (now : GoTime) (st : JsonState) (r : RecurringExpense) : JsonState :=
  let r := applyRuleDefaults freshRuleId st.defaults r
  let expensesToAdd := generateExpensesFromRecurring freshIds now r false
  { st with
    config := { st.config with recurringExpenses := st.config.recurringExpenses ++ [r] }
    expenses := st.expenses ++ expensesToAdd }

/-- The expense-retention predicate of `RemoveRecurringExpense` /
`UpdateRecurringExpense`: an expense survives when its back-reference is
another rule's, or when the flag is false and it is not dated after
`today`. -/
def keepExpense (id : String) (allFlag : Bool) (today : GoTime) (e : Expense) : Bool :=
  e.recurringID != id || (!allFlag && !(e.date.after today))

/-- `jsonStore.RemoveRecurringExpense`: not-found if the rule is absent;
otherwise drop the rule from the config document and drop the
back-referenced expenses (all of them when `removeAll`, only the
future-dated ones otherwise). -/
def jsonRemoveRecurringExpense (now : GoTime) (st : JsonState) (id : String)
    (removeAll : Bool) : Except String JsonState :=
  if st.config.recurringExpenses.any (fun r => r.id == id) then
    .ok { st with
      config := { st.config with
        recurringExpenses := st.config.recurringExpenses.filter (fun r => !(r.id == id)) }
      expenses := st.expenses.filter (keepExpense id removeAll now) }
  else
    .error ("recurring expense with ID " ++ id ++ " not found")

/-- Replace the first rule whose identifier matches (the Go loop updates
index `i` and breaks). -/
def replaceFirstRule : List RecurringExpense → String → RecurringExpense →
    List RecurringExpense
  | [], _, _ => []
  | r :: rest, id, newRule =>
    if r.id == id then newRule :: rest else r :: replaceFirstRule rest id newRule

/-- The identifier preservation (`recurringExpense.ID = id`) and currency
defaulting `UpdateRecurringExpense` performs on the replacement rule
(both stores share this logic). -/
def applyUpdateDefaults (defaults : Defaults) (id : String)
    (r : RecurringExpense) : RecurringExpense :=
  let r := { r with id := id }
  if r.currency == "" then { r with currency := defaults.currency } else r

/-- `jsonStore.UpdateRecurringExpense`: not-found if the rule is absent;
otherwise the replacement rule keeps the identifier (and gets the default
currency when empty), back-referenced expenses are dropped (all of them
when `updateAll`, only future-dated ones otherwise), and a fresh
expansion with `fromToday = !updateAll` is appended. -/
def jsonUpdateRecurringExpense (freshIds : Nat → String) (now : GoTime)
    (st : JsonState) (id : String) (newRule : RecurringExpense)
    (updateAll : Bool) : Except String JsonState :=
  if st.config.recurringExpenses.any (fun r => r.id == id) then
    let newRule := applyUpdateDefaults st.defaults id newRule
    let expensesToAdd := generateExpensesFromRecurring freshIds now newRule (!updateAll)
    .ok { st with
      config := { st.config with
        recurringExpenses := replaceFirstRule st.config.recurringExpenses id newRule }
      expenses := st.expenses.filter (keepExpense id updateAll now) ++ expensesToAdd }
  else
    .error ("recurring expense with ID " ++ id ++ " not found")

/-- `Handler.AddRecurringExpense` (`src/internal/api/import-export.go`
lines 627-647), the caller through which every `addRecurringExpense`
request reaches the store: after decoding the request body it calls
`re.Validate()` — whose pointer receiver leaves the sanitized name/tags
in `re` — and rejects the request with the validation error *before* any
storage call; only a rule that passes validation is handed to the store's
`AddRecurringExpense`.  The HTTP method check and JSON body decoding are
request parsing outside the embedded operation; the store behind the
handler here is the file-backed one. -/
def handlerAddRecurringExpense (freshRuleId : String) (freshIds : Nat → String)
    (now : GoTime) (st : JsonState) (r : RecurringExpense) :
    Except String JsonState :=
  match r.validate with
  | .error msg => .error msg
  | .ok r2 => .ok (jsonAddRecurringExpense freshRuleId freshIds now st r2)

/-! ## Relational store (`databaseStore`) -/

/-- A SQL value as it travels between the embedded tables and `Scan`. -/
inductive SqlValue
  | s (v : String)
  | i (v : Int)
  | r (v : Rat)
  | t (v : GoTime)
  | tags (v : List String)
  deriving DecidableEq, Repr

/-- State of a `databaseStore`: the three tables and the `defaults`
map.  Rows are stored decoded; queries project the columns they select. -/
structure DBState where
  expensesTable : List Expense
  recurringTable : List RecurringExpense
  configRow : Option (List String × String × Int)
  defaults : Defaults
  deriving DecidableEq, Repr

/-- The state right after `InitializePostgresStore` on an empty database. -/
def dbInitialState : DBState :=
  { expensesTable := [], recurringTable := [], configRow := none, defaults := {} }

/-- `scanExpense` applied to a row of the expense queries: both
`GetAllExpenses` and `GetExpense` select
`id, recurring_id, name, category, amount, date, tags` — the `currency`
column is not selected, so the struct's `Currency` field keeps its zero
value `""`. -/
def scanExpenseRow (row : Expense) : Expense :=
  { id := row.id
    recurringID := row.recurringID
    name := row.name
    tags := row.tags
    category := row.category
    amount := row.amount
    currency := ""
    date := row.date }

/-- Insertion step of the `ORDER BY date DESC` sort. -/
def insertByDateDesc (e : Expense) : List Expense → List Expense
  | [] => [e]
  | x :: xs =>
    if x.date.instant < e.date.instant then e :: x :: xs
    else x :: insertByDateDesc e xs

/-- The `ORDER BY date DESC` ordering (ties left in an unspecified
relative order, as SQL leaves them). -/
def sortByDateDesc : List Expense → List Expense
  | [] => []
  | x :: xs => insertByDateDesc x (sortByDateDesc xs)

/-- `databaseStore.GetAllExpenses`: `ORDER BY date DESC`, each row through
`scanExpense`. -/
def dbGetAllExpenses (st : DBState) : List Expense :=
  (sortByDateDesc st.expensesTable).map scanExpenseRow

/-- `databaseStore.GetExpense`: the row with the identifier through
`scanExpense`, else a not-found error. -/
def dbGetExpense (st : DBState) (id : String) : Except String Expense :=
  match st.expensesTable.find? (fun e => e.id == id) with
  | some row => .ok (scanExpenseRow row)
  | none => .error ("expense with ID " ++ id ++ " not found")

/-- `databaseStore.AddExpense`: fill identifier/currency/date defaults
when empty, then `INSERT`; a duplicate primary key makes the insert
fail. -/
def dbAddExpense (fresh : String) (now : GoTime) (st : DBState)
    (expense : Expense) : Except String DBState :=
  let expense := if expense.id == "" then { expense with id := fresh } else expense
  let expense :=
    if expense.currency == "" then { expense with currency := st.defaults.currency }
    else expense
  let expense := if expense.date.isZero then { expense with date := now } else expense
  if st.expensesTable.any (fun e => e.id == expense.id) then
    .error "pq: duplicate key value violates unique constraint"
  else
    .ok { st with expensesTable := st.expensesTable ++ [expense] }

/-- The row the `GetRecurringExpense` query produces: it selects the 8
columns `id, name, amount, category, start_date, interval, occurrences,
tags` (the `currency` column is missing from the `SELECT` list). -/
def recurringQueryRow8 (r : RecurringExpense) : List SqlValue :=
  [.s r.id, .s r.name, .r r.amount, .s r.category, .t r.startDate,
   .s r.interval, .i r.occurrences, .tags r.tags]

/-- `scanRecurringExpense`: `Scan` is called with 9 destinations
(`&ID, &Name, &Amount, &Currency, &Category, &StartDate, &Interval,
&Occurrences, &tagsStr`); `database/sql` rejects a destination count that
differs from the column count of the row before reading anything. -/
def scanRecurringExpense (row : List SqlValue) : Except String RecurringExpense :=
  if row.length ≠ 9 then
    .error ("sql: expected " ++ toString row.length ++
      " destination arguments in Scan, not 9")
  else
    match row with
    | [.s id, .s name, .r amount, .s currency, .s category, .t startDate,
       .s interval, .i occurrences, .tags tg] =>
      .ok { id := id, name := name, amount := amount, currency := currency,
            tags := tg, category := category, startDate := startDate,
            interval := interval, occurrences := occurrences }
    | _ => .error "sql: Scan destination type mismatch"

/-- `databaseStore.GetRecurringExpense`: `sql.ErrNoRows` becomes the
not-found error; any other scan error is wrapped as a retrieval
failure. -/
def dbGetRecurringExpense (st : DBState) (id : String) :
    Except String RecurringExpense :=
  match st.recurringTable.find? (fun r => r.id == id) with
  | none => .error ("recurring expense with ID " ++ id ++ " not found")
  | some r =>
    match scanRecurringExpense (recurringQueryRow8 r) with
    | .error e => .error ("failed to get recurring expense: " ++ e)
    | .ok re => .ok re

/-- `databaseStore.RemoveRecurringExpense` (transactional): not-found if
the `DELETE` of the rule row affects nothing; otherwise the rule row is
gone and the back-referenced expense rows are deleted — all of them when
`removeAll`, only those with `date > now` otherwise. -/
def dbRemoveRecurringExpense (now : GoTime) (st : DBState) (id : String)
    (removeAll : Bool) : Except String DBState :=
  if st.recurringTable.any (fun r => r.id == id) then
    .ok { st with
      recurringTable := st.recurringTable.filter (fun r => !(r.id == id))
      expensesTable := st.expensesTable.filter (keepExpense id removeAll now) }
  else
    .error ("recurring expense with ID " ++ id ++ " not found")

/-- `databaseStore.UpdateRecurringExpense` (transactional): the rule keeps
the identifier and gets the default currency when empty; not-found if the
`UPDATE` affects no row; back-referenced expense rows are deleted (all of
them when `updateAll`, only future-dated ones otherwise) and a fresh
expansion with `fromToday = !updateAll` is bulk-inserted. -/
def dbUpdateRecurringExpense (freshIds : Nat → String) (now : GoTime)
    (st : DBState) (id : String) (newRule : RecurringExpense)
    (updateAll : Bool) : Except String DBState :=
  let newRule := applyUpdateDefaults st.defaults id newRule
  if st.recurringTable.any (fun r => r.id == id) then
    let expensesToAdd := generateExpensesFromRecurring freshIds now newRule (!updateAll)
    .ok { st with
      recurringTable :=
        st.recurringTable.map (fun r => if r.id == id then newRule else r)
      expensesTable :=
        st.expensesTable.filter (keepExpense id updateAll now) ++ expensesToAdd }
  else
    .error ("recurring expense with ID " ++ id ++ " not found to update")

/-! ## The defaults cache under substrate failure (claim C10)

These variants expose the substrate outcome of each step (`readOk` — the
config-file read, `writeOk`/`execOk` — the config write) and return the
operation result together with the defaults cache left in the store
instance.  They follow the Go control flow statement by statement. -/

/-- `jsonStore.UpdateCurrency` with explicit substrate outcomes: validate
the currency, read the config file (failure returns before the cache is
touched), set the new currency in the document *and in the defaults
cache*, then attempt the config write — whose outcome is returned but
does not roll the cache back. -/
def jsonUpdateCurrencyDefaults (readOk writeOk : Bool) (defaults : Defaults)
    (currency : String) : Except String Unit × Defaults :=
  if !supportedCurrencies.contains currency then
    (.error ("invalid currency: " ++ currency), defaults)
  else if !readOk then
    (.error "failed to read config file", defaults)
  else
    let defaults := { defaults with currency := currency }
    (if writeOk then .ok () else .error "failed to write config file", defaults)

/-- `jsonStore.UpdateStartDate` with explicit substrate outcomes,
mirroring `jsonUpdateCurrencyDefaults`. -/
def jsonUpdateStartDateDefaults (readOk writeOk : Bool) (defaults : Defaults)
    (startDate : Int) : Except String Unit × Defaults :=
  if startDate < 1 || 31 < startDate then
    (.error ("invalid start date: " ++ toString startDate), defaults)
  else if !readOk then
    (.error "failed to read config file", defaults)
  else
    let defaults := { defaults with start_date := toString startDate }
    (if writeOk then .ok () else .error "failed to write config file", defaults)

/-- `databaseStore.saveConfig` with an explicit substrate outcome: the
upsert is executed, then the defaults cache is set from the config
*unconditionally*, and only then is the execution error returned. -/
def dbSaveConfigDefaults (execOk : Bool) (defaults : Defaults)
    (config : Config) : Except String Unit × Defaults :=
  let defaults :=
    { defaults with currency := config.currency,
                    start_date := toString config.startDate }
  (if execOk then .ok () else .error "failed to save config", defaults)

/-! ## Lock-acquisition traces of the file-backed store (claim C9)

Each mutating `jsonStore` method is abstracted to the sequence of lock
and file actions its body performs on the success path, read off the Go
source statement by statement. -/

/-- A lock or file action of a `jsonStore` method body. -/
inductive FileAction
  | lockW
  | unlockW
  | lockR
  | unlockR
  | readExpenses
  | writeExpenses
  | readConfig
  | writeConfig
  deriving DecidableEq, Repr

/-- `jsonStore.UpdateCategories`: `mu.Lock`, read config, write config,
deferred `mu.Unlock`. -/
def traceUpdateCategories : List FileAction :=
  [.lockW, .readConfig, .writeConfig, .unlockW]

/-- `jsonStore.UpdateCurrency` (after validation). -/
def traceUpdateCurrency : List FileAction :=
  [.lockW, .readConfig, .writeConfig, .unlockW]

/-- `jsonStore.UpdateStartDate` (after validation). -/
def traceUpdateStartDate : List FileAction :=
  [.lockW, .readConfig, .writeConfig, .unlockW]

/-- `jsonStore.AddRecurringExpense`: `mu.Lock`, read config, write
config, then the `AddMultipleExpenses` body (read expenses, write
expenses) inline under the same lock, deferred `mu.Unlock`. -/
def traceAddRecurringExpense : List FileAction :=
  [.lockW, .readConfig, .writeConfig, .readExpenses, .writeExpenses, .unlockW]

/-- `jsonStore.RemoveRecurringExpense`. -/
def traceRemoveRecurringExpense : List FileAction :=
  [.lockW, .readConfig, .readExpenses, .writeExpenses, .writeConfig, .unlockW]

/-- `jsonStore.UpdateRecurringExpense`. -/
def traceUpdateRecurringExpense : List FileAction :=
  [.lockW, .readConfig, .readExpenses, .writeExpenses, .writeConfig, .unlockW]

/-- `jsonStore.AddExpense`. -/
def traceAddExpense : List FileAction :=
  [.lockW, .readExpenses, .writeExpenses, .unlockW]

/-- `jsonStore.RemoveExpense`. -/
def traceRemoveExpense : List FileAction :=
  [.lockW, .readExpenses, .writeExpenses, .unlockW]

/-- `jsonStore.UpdateExpense`. -/
def traceUpdateExpense : List FileAction :=
  [.lockW, .readExpenses, .writeExpenses, .unlockW]

/-- `jsonStore.RemoveMultipleExpenses` (nonempty input). -/
def traceRemoveMultipleExpenses : List FileAction :=
  [.lockW, .readExpenses, .writeExpenses, .unlockW]

/-- `jsonStore.AddMultipleExpenses` (nonempty input): the body has no
`mu.Lock`/`mu.Unlock` at all — it reads and writes the expense document
directly. -/
def traceAddMultipleExpenses : List FileAction :=
  [.readExpenses, .writeExpenses]

/-- Whether an action touches a file (as opposed to the lock). -/
def FileAction.isFileOp : FileAction → Bool
  | .readExpenses | .writeExpenses | .readConfig | .writeConfig => true
  | _ => false

/-- The body of a locked cycle: file actions only, closed by the
unlock. -/
def lockedBody : List FileAction → Bool
  | [.unlockW] => true
  | a :: rest => a.isFileOp && lockedBody rest
  | [] => false

/-- A trace that takes the exclusive lock first, performs only file
actions, and releases the lock last: the full read-document →
mutate-in-memory → write-document cycle is inside the critical
section. -/
def isLockedCycle : List FileAction → Bool
  | .lockW :: rest => lockedBody rest
  | _ => false

/-- The mutating operations of the file-backed store, paired with their
traces. -/
def mutatingTraces : List (String × List FileAction) :=
  [("UpdateCategories", traceUpdateCategories),
   ("UpdateCurrency", traceUpdateCurrency),
   ("UpdateStartDate", traceUpdateStartDate),
   ("AddRecurringExpense", traceAddRecurringExpense),
   ("RemoveRecurringExpense", traceRemoveRecurringExpense),
   ("UpdateRecurringExpense", traceUpdateRecurringExpense),
   ("AddExpense", traceAddExpense),
   ("RemoveExpense", traceRemoveExpense),
   ("UpdateExpense", traceUpdateExpense),
   ("AddMultipleExpenses", traceAddMultipleExpenses),
   ("RemoveMultipleExpenses", traceRemoveMultipleExpenses)]

/-! ## Calendar arithmetic lemmas

The facts about the Gregorian roll-up needed to reason about
`AddDate`-stepping: each interval step never moves the instant
backwards. -/

theorem succ_fdiv_of_fmod_eq (a n : Int) (hn : 0 < n) (h : a.fmod n = n - 1) :
    (a + 1).fdiv n = a.fdiv n + 1 ∧ (a + 1).fmod n = 0 := by
  rw [Int.fdiv_eq_ediv _ hn.le, Int.fdiv_eq_ediv _ hn.le,
    Int.fmod_eq_emod _ hn.le] at *
  have hm := Int.ediv_add_emod a n
  exact (Int.ediv_emod_unique hn).mpr ⟨by linarith, le_refl 0, hn⟩

theorem succ_fdiv_of_fmod_ne (a n : Int) (hn : 0 < n) (h : a.fmod n ≠ n - 1) :
    (a + 1).fdiv n = a.fdiv n ∧ (a + 1).fmod n = a.fmod n + 1 := by
  rw [Int.fdiv_eq_ediv _ hn.le, Int.fdiv_eq_ediv _ hn.le,
    Int.fmod_eq_emod _ hn.le, Int.fmod_eq_emod _ hn.le] at *
  have hm := Int.ediv_add_emod a n
  have h0 : 0 ≤ a % n := Int.emod_nonneg a hn.ne'
  have h1 : a % n < n := Int.emod_lt_of_pos a hn
  exact (Int.ediv_emod_unique hn).mpr ⟨by linarith, by linarith, by omega⟩

theorem isLeap_iff (y : Int) :
    isLeap y = true ↔ (4 ∣ y ∧ (¬100 ∣ y ∨ 400 ∣ y)) := by
  simp only [isLeap, Bool.and_eq_true, Bool.or_eq_true, beq_iff_eq, bne_iff_ne,
    Int.dvd_iff_emod_eq_zero]

theorem fdiv_succ_sub (y n : Int) (hn : 0 < n) :
    y.fdiv n - (y - 1).fdiv n = if n ∣ y then 1 else 0 := by
  by_cases hd : n ∣ y
  · have h : (y - 1).fmod n = n - 1 := by
      rw [Int.fmod_eq_emod _ hn.le]
      obtain ⟨k, hk⟩ := hd
      have : y - 1 = (n - 1) + n * (k - 1) := by linarith [hk]
      rw [this, Int.add_mul_emod_self_left]
      exact Int.emod_eq_of_lt (by linarith) (by linarith)
    have := succ_fdiv_of_fmod_eq (y - 1) n hn h
    rw [sub_add_cancel] at this
    rw [if_pos hd]
    linarith [this.1]
  · have h : (y - 1).fmod n ≠ n - 1 := by
      intro hc
      have := succ_fdiv_of_fmod_eq (y - 1) n hn hc
      rw [sub_add_cancel] at this
      apply hd
      rw [Int.dvd_iff_emod_eq_zero, ← Int.fmod_eq_emod _ hn.le]
      exact this.2
    have := succ_fdiv_of_fmod_ne (y - 1) n hn h
    rw [sub_add_cancel] at this
    rw [if_neg hd]
    linarith [this.1]

theorem daysBeforeYear_succ (y : Int) :
    daysBeforeYear (y + 1) = daysBeforeYear y + 365 + (if isLeap y then 1 else 0) := by
  have h4 := fdiv_succ_sub y 4 (by norm_num)
  have h100 := fdiv_succ_sub y 100 (by norm_num)
  have h400 := fdiv_succ_sub y 400 (by norm_num)
  have hy1 : y + 1 - 1 = y := by ring
  unfold daysBeforeYear
  rw [hy1]
  have h41 : (100:Int) ∣ y → (4:Int) ∣ y := fun h => dvd_trans (by norm_num) h
  have h42 : (400:Int) ∣ y → (100:Int) ∣ y := fun h => dvd_trans (by norm_num) h
  by_cases hd4 : (4:Int) ∣ y
  · by_cases hd100 : (100:Int) ∣ y
    · by_cases hd400 : (400:Int) ∣ y
      · have hl : isLeap y = true := (isLeap_iff y).mpr ⟨hd4, Or.inr hd400⟩
        rw [if_pos hd4] at h4; rw [if_pos hd100] at h100
        rw [if_pos hd400] at h400; rw [hl, if_pos rfl]
        linarith
      · have hl : isLeap y = false := by
          rw [← Bool.not_eq_true]
          intro hc
          rcases ((isLeap_iff y).mp hc).2 with h | h
          · exact h hd100
          · exact hd400 h
        rw [if_pos hd4] at h4; rw [if_pos hd100] at h100
        rw [if_neg hd400] at h400; rw [hl]
        simp only [Bool.false_eq_true, if_false]
        linarith
    · have hd400 : ¬(400:Int) ∣ y := fun h => hd100 (h42 h)
      have hl : isLeap y = true := (isLeap_iff y).mpr ⟨hd4, Or.inl hd100⟩
      rw [if_pos hd4] at h4; rw [if_neg hd100] at h100
      rw [if_neg hd400] at h400; rw [hl, if_pos rfl]
      linarith
  · have hd100 : ¬(100:Int) ∣ y := fun h => hd4 (h41 h)
    have hd400 : ¬(400:Int) ∣ y := fun h => hd100 (h42 h)
    have hl : isLeap y = false := by
      rw [← Bool.not_eq_true]
      intro hc
      exact hd4 ((isLeap_iff y).mp hc).1
    rw [if_neg hd4] at h4; rw [if_neg hd100] at h100
    rw [if_neg hd400] at h400; rw [hl]
    simp only [Bool.false_eq_true, if_false]
    linarith

theorem monthOrd_succ_ge (y m : Int) : monthOrd y m + 28 ≤ monthOrd y (m + 1) := by
  have ha : m + 1 - 1 = (m - 1) + 1 := by ring
  have hr0 : 0 ≤ (m - 1).fmod 12 := by
    rw [Int.fmod_eq_emod _ (by norm_num)]
    exact Int.emod_nonneg _ (by norm_num)
  have hr1 : (m - 1).fmod 12 < 12 := Int.fmod_lt_of_pos _ (by norm_num)
  by_cases h : (m - 1).fmod 12 = 11
  · have hs := succ_fdiv_of_fmod_eq (m - 1) 12 (by norm_num) (by rw [h]; norm_num)
    simp only [monthOrd]
    rw [ha, hs.1, hs.2, h]
    have harr : y + ((m - 1).fdiv 12 + 1) = (y + (m - 1).fdiv 12) + 1 := by ring
    rw [harr, daysBeforeYear_succ]
    cases hl : isLeap (y + (m - 1).fdiv 12) <;>
      simp [hl, daysBeforeMonth] <;> linarith
  · have hs := succ_fdiv_of_fmod_ne (m - 1) 12 (by norm_num) (by rw [ne_eq]; omega)
    simp only [monthOrd]
    rw [ha, hs.1, hs.2]
    have h10 : (m - 1).fmod 12 ≤ 10 := by omega
    set r := (m - 1).fmod 12 with hrdef
    set y1 := y + (m - 1).fdiv 12 with hy1def
    clear_value r y1
    interval_cases r <;>
      cases hl : isLeap y1 <;>
        simp [hl, daysBeforeMonth] <;> linarith

theorem monthOrd_year_succ_ge (y m : Int) :
    monthOrd y m + 334 ≤ monthOrd (y + 1) m := by
  simp only [monthOrd]
  have harr : y + 1 + (m - 1).fdiv 12 = (y + (m - 1).fdiv 12) + 1 := by ring
  rw [harr, daysBeforeYear_succ]
  cases hl : isLeap (y + (m - 1).fdiv 12) <;>
    cases hl2 : isLeap (y + (m - 1).fdiv 12 + 1) <;>
      by_cases hm2 : 2 ≤ ((m - 1).fmod 12).toNat <;>
        simp [hl, hl2, hm2] <;> linarith

theorem instant_le_addDate_days (t : GoTime) (k : Int) (hk : 0 ≤ k) :
    t.instant ≤ (t.addDate 0 0 k).instant := by
  simp only [GoTime.addDate, GoTime.instant, add_zero]
  have h : (0:Int) ≤ k * nsPerDay := mul_nonneg hk (by norm_num [nsPerDay])
  nlinarith [h]

theorem instant_le_addDate_month (t : GoTime) :
    t.instant ≤ (t.addDate 0 1 0).instant := by
  simp only [GoTime.addDate, GoTime.instant, add_zero]
  have h := monthOrd_succ_ge t.year t.month
  have h2 : (monthOrd t.year t.month + (t.day - 1)) * nsPerDay
      ≤ (monthOrd t.year (t.month + 1) + (t.day - 1)) * nsPerDay :=
    mul_le_mul_of_nonneg_right (by linarith) (by norm_num [nsPerDay])
  linarith

theorem instant_le_addDate_year (t : GoTime) :
    t.instant ≤ (t.addDate 1 0 0).instant := by
  simp only [GoTime.addDate, GoTime.instant, add_zero]
  have h := monthOrd_year_succ_ge t.year t.month
  have h2 : (monthOrd t.year t.month + (t.day - 1)) * nsPerDay
      ≤ (monthOrd (t.year + 1) t.month + (t.day - 1)) * nsPerDay :=
    mul_le_mul_of_nonneg_right (by linarith) (by norm_num [nsPerDay])
  linarith

/-- A recognized interval is one of the four tags. -/
theorem validInterval_cases (i : String) (hi : validInterval i = true) :
    i = "daily" ∨ i = "weekly" ∨ i = "monthly" ∨ i = "yearly" := by
  simp only [validInterval, Bool.or_eq_true, beq_iff_eq] at hi
  tauto

/-- Under a recognized interval the step switch never hits the
`default:` branch. -/
theorem stepDate_eq (i : String) (hi : validInterval i = true) (d : GoTime) :
    stepDate i d = some (stepDateD i d) := by
  rcases validInterval_cases i hi with h | h | h | h <;> subst h <;> rfl

/-- Each interval step never moves the instant backwards. -/
theorem instant_le_stepDateD (i : String) (hi : validInterval i = true)
    (d : GoTime) : d.instant ≤ (stepDateD i d).instant := by
  rcases validInterval_cases i hi with h | h | h | h <;> subst h
  · exact instant_le_addDate_days d 1 (by norm_num)
  · exact instant_le_addDate_days d 7 (by norm_num)
  · exact instant_le_addDate_month d
  · exact instant_le_addDate_year d

/-! ## Recurrence-engine lemmas -/

theorem emitLoop_length (f : Nat → String) (re : RecurringExpense)
    (hi : validInterval re.interval = true) :
    ∀ (n : Nat) (cur : GoTime) (k : Nat), (emitLoop f re cur k n).length = n := by
  intro n
  induction n with
  | zero => intro cur k; rfl
  | succ n ih =>
    intro cur k
    unfold emitLoop
    rw [stepDate_eq re.interval hi cur]
    simp [ih]

theorem emitLoop_map_date (f : Nat → String) (re : RecurringExpense)
    (hi : validInterval re.interval = true) :
    ∀ (n : Nat) (cur : GoTime) (k : Nat),
      (emitLoop f re cur k n).map (fun e => e.date)
        = (List.range n).map (iterDate re.interval cur) := by
  intro n
  induction n with
  | zero => intro cur k; rfl
  | succ n ih =>
    intro cur k
    unfold emitLoop
    rw [stepDate_eq re.interval hi cur, List.range_succ_eq_map]
    simp only [List.map_cons, List.map_map]
    have hfun : iterDate re.interval cur ∘ Nat.succ
        = iterDate re.interval (stepDateD re.interval cur) := funext fun j => rfl
    rw [hfun, ← ih (stepDateD re.interval cur) (k + 1)]
    rfl

theorem emitLoop_date_ge (f : Nat → String) (re : RecurringExpense)
    (hi : validInterval re.interval = true) :
    ∀ (n : Nat) (cur : GoTime) (k : Nat) (e : Expense),
      e ∈ emitLoop f re cur k n → cur.instant ≤ e.date.instant := by
  intro n
  induction n with
  | zero => intro cur k e he; cases he
  | succ n ih =>
    intro cur k e he
    unfold emitLoop at he
    rw [stepDate_eq re.interval hi cur] at he
    rcases List.mem_cons.mp he with h | h
    · subst h; exact le_refl _
    · exact le_trans (instant_le_stepDateD re.interval hi cur)
        (ih (stepDateD re.interval cur) (k + 1) e h)

theorem ffLoop_spec (i : String) (today : GoTime) (hi : validInterval i = true) :
    ∀ (b : Nat) (cur : GoTime), ∃ c : GoTime,
      ffLoop i today b cur = some (c, b - ffSteps i today b cur) ∧
      ffSteps i today b cur ≤ b ∧
      (b - ffSteps i today b cur ≠ 0 → today.instant ≤ c.instant) := by
  intro b
  induction b with
  | zero =>
    intro cur
    exact ⟨cur, rfl, le_refl 0, fun h => absurd rfl h⟩
  | succ b ih =>
    intro cur
    by_cases hb : cur.before today = true
    · obtain ⟨c, hc, hle, hge⟩ := ih (stepDateD i cur)
      refine ⟨c, ?_, ?_, ?_⟩
      · unfold ffLoop
        rw [hb, stepDate_eq i hi cur]
        simp only [ffSteps, hb, if_true, stepDate_eq i hi cur]
        have : b + 1 - (ffSteps i today b (stepDateD i cur) + 1)
            = b - ffSteps i today b (stepDateD i cur) := by omega
        rw [this]
        exact hc
      · simp only [ffSteps, hb, if_true, stepDate_eq i hi cur]
        omega
      · intro h
        apply hge
        simp only [ffSteps, hb, if_true, stepDate_eq i hi cur] at h
        omega
    · rw [Bool.not_eq_true] at hb
      refine ⟨cur, ?_, ?_, ?_⟩
      · unfold ffLoop
        rw [hb]
        simp only [ffSteps, hb, Bool.false_eq_true, if_false, Nat.sub_zero]
      · simp only [ffSteps, hb, Bool.false_eq_true, if_false]
        omega
      · intro _
        have : ¬ (cur.instant < today.instant) := by
          simpa [GoTime.before] using hb
        omega

/-! ## Concrete fixtures used by witnesses and counterexamples -/

/-- The spec's concrete scenario: a monthly rule starting 2024-01-15 with
3 occurrences. -/
def c1Rule : RecurringExpense :=
  { id := "r1", name := "Rent", amount := 100, currency := "usd", tags := [],
    category := "Rent", startDate := ⟨2024, 1, 15, 0⟩, interval := "monthly",
    occurrences := 3 }

/-- A daily rule whose start date coincides with the call instant. -/
def c3Rule : RecurringExpense :=
  { id := "r3", name := "Daily", amount := 1, currency := "usd", tags := [],
    category := "Misc", startDate := ⟨2024, 1, 15, 0⟩, interval := "daily",
    occurrences := 2 }

/-! ## Claim C1 -/

/-- C1: for every valid rule (recognized interval, occurrences `N ≥ 2`),
`generateExpensesFromRecurring(rule, false)` returns exactly `N` expense
records dated `start, start+interval, …, start+(N-1)*interval` in that
order, where the interval step is +1 day (daily), +7 days (weekly),
+1 calendar month (monthly), +1 calendar year (yearly). -/
theorem expand_fromStart_counts_and_dates
    (freshIds : Nat → String) (today : GoTime) (re : RecurringExpense)
    (hi : validInterval re.interval = true) (hocc : 2 ≤ re.occurrences) :
    ((generateExpensesFromRecurring freshIds today re false).length : Int)
        = re.occurrences ∧
    (generateExpensesFromRecurring freshIds today re false).map (fun e => e.date)
      = (List.range re.occurrences.toNat).map (iterDate re.interval re.startDate) := by
  have hgen : generateExpensesFromRecurring freshIds today re false
      = emitLoop freshIds re re.startDate 0 re.occurrences.toNat := rfl
  rw [hgen]
  constructor
  · rw [emitLoop_length freshIds re hi]
    exact Int.toNat_of_nonneg (by omega)
  · exact emitLoop_map_date freshIds re hi _ _ _

/-- Witness for C1 at the spec's concrete scenario: the monthly rule
starting 2024-01-15 with 3 occurrences expands (from the start) to
exactly [2024-01-15, 2024-02-15, 2024-03-15]. -/
theorem expand_fromStart_counts_and_dates_witness :
    ((generateExpensesFromRecurring (fun k => toString k) ⟨2025, 1, 1, 0⟩
        c1Rule false).length : Int) = 3 ∧
    (generateExpensesFromRecurring (fun k => toString k) ⟨2025, 1, 1, 0⟩
        c1Rule false).map (fun e => e.date)
      = [⟨2024, 1, 15, 0⟩, ⟨2024, 2, 15, 0⟩, ⟨2024, 3, 15, 0⟩] := by
  have h := expand_fromStart_counts_and_dates (fun k => toString k)
    ⟨2025, 1, 1, 0⟩ c1Rule (by decide) (by decide)
  exact ⟨h.1, by decide⟩

/-! ## Claim C3 -/

/-- Counterexample to C3 as stated: with `fromToday = true` the engine can
emit a record dated exactly *at* the time of the call (the fast-forward
loop only skips dates strictly before "now"), here a daily rule whose
start date equals the call instant. -/
theorem expand_fromToday_boundary_counterexample :
    ∃ e ∈ generateExpensesFromRecurring (fun k => toString k)
        ⟨2024, 1, 15, 0⟩ c3Rule true,
      e.date.instant ≤ (GoTime.mk 2024 1 15 0).instant := by
  decide

/-- C3 (amended): for every valid rule with occurrences `N ≥ 2`,
`generateExpensesFromRecurring(rule, true)` emits no record dated
strictly before the call time — every emitted record is dated at or after
"now" — and the number of records emitted equals `max(0, N - skipped)`,
where `skipped` is the number of interval steps the fast-forward loop
actually takes. -/
theorem expand_fromToday_future_only
    (freshIds : Nat → String) (today : GoTime) (re : RecurringExpense)
    (hi : validInterval re.interval = true) (hocc : 2 ≤ re.occurrences) :
    (∀ e ∈ generateExpensesFromRecurring freshIds today re true,
        today.instant ≤ e.date.instant) ∧
    ((generateExpensesFromRecurring freshIds today re true).length : Int)
      = max 0 (re.occurrences
          - (ffSteps re.interval today re.occurrences.toNat re.startDate : Int)) := by
  obtain ⟨c, hff, hle, hge⟩ :=
    ffLoop_spec re.interval today hi re.occurrences.toNat re.startDate
  have hocc0 : ¬ ((re.occurrences == 0) = true) := by
    rw [beq_iff_eq]; omega
  have hgen : generateExpensesFromRecurring freshIds today re true
      = emitLoop freshIds re c 0
          (re.occurrences.toNat
            - ffSteps re.interval today re.occurrences.toNat re.startDate) := by
    unfold generateExpensesFromRecurring
    rw [if_pos rfl, if_neg hocc0, hff]
  have hN : ((re.occurrences.toNat : Int)) = re.occurrences :=
    Int.toNat_of_nonneg (by omega)
  constructor
  · intro e he
    rw [hgen] at he
    rcases Nat.eq_zero_or_pos
        (re.occurrences.toNat
          - ffSteps re.interval today re.occurrences.toNat re.startDate) with h0 | hpos
    · rw [h0] at he
      cases he
    · exact le_trans (hge (by omega)) (emitLoop_date_ge freshIds re hi _ c 0 e he)
  · rw [hgen, emitLoop_length freshIds re hi]
    omega

/-- Witness for the amended C3: the monthly rule starting 2024-01-15 with
3 occurrences, expanded from today at 2024-02-20. -/
theorem expand_fromToday_future_only_witness :
    (∀ e ∈ generateExpensesFromRecurring (fun k => toString k)
        ⟨2024, 2, 20, 0⟩ c1Rule true,
        (GoTime.mk 2024 2 20 0).instant ≤ e.date.instant) ∧
    ((generateExpensesFromRecurring (fun k => toString k)
        ⟨2024, 2, 20, 0⟩ c1Rule true).length : Int)
      = max 0 (3 - (ffSteps "monthly" ⟨2024, 2, 20, 0⟩ 3 ⟨2024, 1, 15, 0⟩ : Int)) :=
  expand_fromToday_future_only (fun k => toString k) ⟨2024, 2, 20, 0⟩ c1Rule
    (by decide) (by decide)

/-! ## Claims C4 and C5 -/

/-- The retention predicate in the claims' language. -/
theorem keepExpense_iff (id : String) (allFlag : Bool) (today : GoTime)
    (e : Expense) :
    keepExpense id allFlag today e = true ↔
      (e.recurringID ≠ id ∨ (allFlag = false ∧ e.date.after today = false)) := by
  simp [keepExpense, Bool.or_eq_true, Bool.and_eq_true, bne_iff_ne,
    Bool.not_eq_true']

/-- C4: for a stored rule `id`, `removeRecurringExpense(id, true)` deletes
every expense whose back-reference equals `id`, and
`removeRecurringExpense(id, false)` deletes exactly the back-referenced
expenses dated strictly after the call time while every back-referenced
expense dated at or before the call time survives verbatim (back-reference
included) — in both store implementations. -/
theorem removeRecurring_cascade
    (now : GoTime) (st : JsonState) (dst : DBState) (id : String)
    (removeAll : Bool)
    (hj : (st.config.recurringExpenses.any fun r => r.id == id) = true)
    (hd : (dst.recurringTable.any fun r => r.id == id) = true) :
    ∃ st' dst',
      jsonRemoveRecurringExpense now st id removeAll = .ok st' ∧
      dbRemoveRecurringExpense now dst id removeAll = .ok dst' ∧
      st'.expenses = st.expenses.filter (keepExpense id removeAll now) ∧
      dst'.expensesTable = dst.expensesTable.filter (keepExpense id removeAll now) ∧
      (∀ e, e ∈ st'.expenses ↔ e ∈ st.expenses ∧
        (e.recurringID ≠ id ∨ (removeAll = false ∧ e.date.after now = false))) ∧
      (∀ e, e ∈ dst'.expensesTable ↔ e ∈ dst.expensesTable ∧
        (e.recurringID ≠ id ∨ (removeAll = false ∧ e.date.after now = false))) := by
  unfold jsonRemoveRecurringExpense dbRemoveRecurringExpense
  rw [if_pos hj, if_pos hd]
  refine ⟨_, _, rfl, rfl, rfl, rfl, ?_, ?_⟩
  · intro e
    rw [List.mem_filter, keepExpense_iff]
  · intro e
    rw [List.mem_filter, keepExpense_iff]

/-- Fixtures for the C4/C5 witnesses: one rule `r1` with one materialized
past instance and one future instance, the call time between the two. -/
def w4Rule : RecurringExpense :=
  { id := "r1", name := "Gym", amount := 30, currency := "usd", tags := [],
    category := "Health", startDate := ⟨2024, 1, 1, 0⟩, interval := "monthly",
    occurrences := 2 }

def w4Past : Expense :=
  { id := "p1", recurringID := "r1", name := "Gym", tags := [],
    category := "Health", amount := 30, currency := "usd",
    date := ⟨2024, 1, 1, 0⟩ }

def w4Future : Expense :=
  { id := "f1", recurringID := "r1", name := "Gym", tags := [],
    category := "Health", amount := 30, currency := "usd",
    date := ⟨2024, 3, 1, 0⟩ }

def w4Json : JsonState :=
  { expenses := [w4Past, w4Future]
    config := { Config.setBaseConfig with recurringExpenses := [w4Rule] }
    defaults := {} }

def w4DB : DBState :=
  { expensesTable := [w4Past, w4Future], recurringTable := [w4Rule],
    configRow := none, defaults := {} }

/-- Witness for C4 at the fixture state with `removeAll = false`. -/
theorem removeRecurring_cascade_witness :
    ∃ st' dst',
      jsonRemoveRecurringExpense ⟨2024, 2, 1, 0⟩ w4Json "r1" false = .ok st' ∧
      dbRemoveRecurringExpense ⟨2024, 2, 1, 0⟩ w4DB "r1" false = .ok dst' ∧
      st'.expenses = w4Json.expenses.filter (keepExpense "r1" false ⟨2024, 2, 1, 0⟩) ∧
      dst'.expensesTable
        = w4DB.expensesTable.filter (keepExpense "r1" false ⟨2024, 2, 1, 0⟩) ∧
      (∀ e, e ∈ st'.expenses ↔ e ∈ w4Json.expenses ∧
        (e.recurringID ≠ "r1" ∨
          (false = false ∧ e.date.after ⟨2024, 2, 1, 0⟩ = false))) ∧
      (∀ e, e ∈ dst'.expensesTable ↔ e ∈ w4DB.expensesTable ∧
        (e.recurringID ≠ "r1" ∨
          (false = false ∧ e.date.after ⟨2024, 2, 1, 0⟩ = false))) :=
  removeRecurring_cascade ⟨2024, 2, 1, 0⟩ w4Json w4DB "r1" false
    (by decide) (by decide)

/-- C5: for a stored rule `id`, `updateRecurringExpense(id, newRule,
false)` keeps every previously materialized back-referenced expense dated
at or before the call time unchanged, deletes exactly the back-referenced
expenses dated strictly after the call time, appends a fresh expansion of
the replacement rule with `fromToday = true`, and the replacement rule
keeps identifier `id` — in both store implementations. -/
theorem updateRecurring_partial
    (freshIds : Nat → String) (now : GoTime) (st : JsonState) (dst : DBState)
    (id : String) (newRule : RecurringExpense)
    (hj : (st.config.recurringExpenses.any fun r => r.id == id) = true)
    (hd : (dst.recurringTable.any fun r => r.id == id) = true) :
    ∃ st' dst',
      jsonUpdateRecurringExpense freshIds now st id newRule false = .ok st' ∧
      dbUpdateRecurringExpense freshIds now dst id newRule false = .ok dst' ∧
      (applyUpdateDefaults st.defaults id newRule).id = id ∧
      st'.expenses = st.expenses.filter (keepExpense id false now)
          ++ generateExpensesFromRecurring freshIds now
              (applyUpdateDefaults st.defaults id newRule) true ∧
      dst'.expensesTable = dst.expensesTable.filter (keepExpense id false now)
          ++ generateExpensesFromRecurring freshIds now
              (applyUpdateDefaults dst.defaults id newRule) true ∧
      st'.config.recurringExpenses
        = replaceFirstRule st.config.recurringExpenses id
            (applyUpdateDefaults st.defaults id newRule) ∧
      (∀ e ∈ st.expenses, e.recurringID = id → e.date.after now = false →
          e ∈ st'.expenses) ∧
      (∀ e, e ∈ st.expenses.filter (keepExpense id false now) ↔
          e ∈ st.expenses ∧ (e.recurringID ≠ id ∨ e.date.after now = false)) := by
  unfold jsonUpdateRecurringExpense dbUpdateRecurringExpense
  rw [if_pos hj, if_pos hd]
  have hid : (applyUpdateDefaults st.defaults id newRule).id = id := by
    simp only [applyUpdateDefaults]
    split <;> rfl
  refine ⟨_, _, rfl, rfl, hid, rfl, rfl, rfl, ?_, ?_⟩
  · intro e he hrid hafter
    apply List.mem_append_left
    rw [List.mem_filter, keepExpense_iff]
    exact ⟨he, Or.inr ⟨rfl, hafter⟩⟩
  · intro e
    rw [List.mem_filter, keepExpense_iff]
    tauto

/-- Witness for C5 at the fixture state, replacing `r1` by a weekly
rule. -/
theorem updateRecurring_partial_witness :
    ∃ st' dst',
      jsonUpdateRecurringExpense (fun k => toString k) ⟨2024, 2, 1, 0⟩ w4Json
          "r1" c3Rule false = .ok st' ∧
      dbUpdateRecurringExpense (fun k => toString k) ⟨2024, 2, 1, 0⟩ w4DB
          "r1" c3Rule false = .ok dst' ∧
      (applyUpdateDefaults w4Json.defaults "r1" c3Rule).id = "r1" ∧
      st'.expenses
        = w4Json.expenses.filter (keepExpense "r1" false ⟨2024, 2, 1, 0⟩)
          ++ generateExpensesFromRecurring (fun k => toString k) ⟨2024, 2, 1, 0⟩
              (applyUpdateDefaults w4Json.defaults "r1" c3Rule) true ∧
      dst'.expensesTable
        = w4DB.expensesTable.filter (keepExpense "r1" false ⟨2024, 2, 1, 0⟩)
          ++ generateExpensesFromRecurring (fun k => toString k) ⟨2024, 2, 1, 0⟩
              (applyUpdateDefaults w4DB.defaults "r1" c3Rule) true ∧
      st'.config.recurringExpenses
        = replaceFirstRule w4Json.config.recurringExpenses "r1"
            (applyUpdateDefaults w4Json.defaults "r1" c3Rule) ∧
      (∀ e ∈ w4Json.expenses, e.recurringID = "r1" →
          e.date.after ⟨2024, 2, 1, 0⟩ = false → e ∈ st'.expenses) ∧
      (∀ e, e ∈ w4Json.expenses.filter (keepExpense "r1" false ⟨2024, 2, 1, 0⟩) ↔
          e ∈ w4Json.expenses ∧
            (e.recurringID ≠ "r1" ∨ e.date.after ⟨2024, 2, 1, 0⟩ = false)) :=
  updateRecurring_partial (fun k => toString k) ⟨2024, 2, 1, 0⟩ w4Json w4DB
    "r1" c3Rule (by decide) (by decide)

/-! ## Claim C6 -/

/-- Inversion of a successful validation: every check of
`RecurringExpense.Validate` passed. -/
theorem validate_ok (r r2 : RecurringExpense) (h : r.validate = .ok r2) :
    sanitizeString r.name ≠ "" ∧ r.category ≠ "" ∧ 2 ≤ r.occurrences ∧
      r.startDate.isZero = false ∧ validInterval r.interval = true := by
  simp only [RecurringExpense.validate] at h
  split at h
  · cases h
  · split at h
    · cases h
    · split at h
      · cases h
      · split at h
        · cases h
        · split at h
          · cases h
          · rename_i h1 h2 h3 h4 h5
            refine ⟨by simpa using h1, by simpa using h2, by omega, ?_, ?_⟩
            · simpa [Bool.not_eq_true] using h4
            · simpa [Bool.not_eq_true'] using h5

/-- C6: the `addRecurringExpense` operation — `Handler.AddRecurringExpense`
calling the store — validates before persisting: a rule failing any of
the enumerated validation checks (name empty after sanitization, empty
category, occurrence count < 2, unrecognized interval) is rejected with a
validation error before any storage call, so nothing is persisted; a rule
that passes validation is assigned its id/currency defaults, appended to
the stored rule set, and materialized via expansion with
`fromToday = false`. -/
theorem addRecurring_validation
    (freshRuleId : String) (freshIds : Nat → String) (now : GoTime)
    (st : JsonState) (r : RecurringExpense) :
    ((sanitizeString r.name = "" ∨ r.category = "" ∨ r.occurrences < 2 ∨
        validInterval r.interval = false) →
      ∃ msg, handlerAddRecurringExpense freshRuleId freshIds now st r
        = .error msg) ∧
    (∀ r2, r.validate = .ok r2 →
      handlerAddRecurringExpense freshRuleId freshIds now st r
        = .ok { st with
            config := { st.config with recurringExpenses :=
              st.config.recurringExpenses
                ++ [applyRuleDefaults freshRuleId st.defaults r2] }
            expenses := st.expenses
              ++ generateExpensesFromRecurring freshIds now
                  (applyRuleDefaults freshRuleId st.defaults r2) false }) := by
  constructor
  · intro hbad
    rcases hv : r.validate with msg | r2
    · exact ⟨msg, by unfold handlerAddRecurringExpense; rw [hv]⟩
    · exfalso
      obtain ⟨h1, h2, h3, _, h5⟩ := validate_ok r r2 hv
      rcases hbad with h | h | h | h
      · exact h1 h
      · exact h2 h
      · omega
      · rw [h5] at h; cases h
  · intro r2 hv
    unfold handlerAddRecurringExpense
    rw [hv]
    rfl

/-- A rule with only one occurrence, rejected by validation. -/
def c6Rule : RecurringExpense :=
  { id := "", name := "One", amount := 5, currency := "", tags := [],
    category := "Misc", startDate := ⟨2024, 1, 1, 0⟩, interval := "daily",
    occurrences := 1 }

/-- Witness for C6: the one-occurrence rule is rejected. -/
theorem addRecurring_validation_witness :
    ∃ msg, handlerAddRecurringExpense "rid" (fun k => toString k)
        ⟨2024, 1, 1, 0⟩ jsonInitialState c6Rule = .error msg :=
  (addRecurring_validation "rid" (fun k => toString k) ⟨2024, 1, 1, 0⟩
      jsonInitialState c6Rule).1
    (Or.inr (Or.inr (Or.inl (by decide))))

/-! ## Claim C7 -/

/-- States holding the single rule `r1` for the C7 evaluation. -/
def c7Json : JsonState :=
  { expenses := []
    config := { Config.setBaseConfig with recurringExpenses := [w4Rule] }
    defaults := {} }

def c7DB : DBState :=
  { expensesTable := [], recurringTable := [w4Rule], configRow := none,
    defaults := {} }

/-- C7 (code bug): the file-backed `getRecurringExpense` behaves as
claimed (returns the stored rule, not-found when absent), but the
relational implementation can never succeed: its query selects 8 columns
while `scanRecurringExpense` passes 9 destinations to `Scan`, so even for
a stored rule it returns a wrapped scan error instead of the rule. -/
theorem getRecurringExpense_scan_bug :
    jsonGetRecurringExpense c7Json "r1" = .ok w4Rule ∧
    (∃ msg, jsonGetRecurringExpense c7Json "zzz" = .error msg) ∧
    dbGetRecurringExpense c7DB "r1"
      = .error ("failed to get recurring expense: " ++
          "sql: expected 8 destination arguments in Scan, not 9") ∧
    (∃ msg, dbGetRecurringExpense c7DB "zzz" = .error msg) :=
  ⟨rfl, ⟨_, rfl⟩, rfl, ⟨_, rfl⟩⟩

/-! ## Claim C8 -/

/-- An expense with every optional field supplied. -/
def c8Expense : Expense :=
  { id := "e1", recurringID := "", name := "Lunch", tags := ["work"],
    category := "Food", amount := 12, currency := "usd",
    date := ⟨2024, 3, 10, 0⟩ }

/-- C8 (code bug): after `addExpense`, `getExpense` on the file-backed
store returns the record unchanged (no field had to be defaulted), but on
the relational store the same round trip loses the stored currency: the
read path never selects the `currency` column, so the nonempty currency
comes back replaced by `""`. -/
theorem expense_roundtrip_currency_bug :
    jsonGetExpense (jsonAddExpense "u1" ⟨2024, 3, 11, 0⟩ jsonInitialState
        c8Expense) "e1" = .ok c8Expense ∧
    Except.bind (dbAddExpense "u1" ⟨2024, 3, 11, 0⟩ dbInitialState c8Expense)
        (fun st => dbGetExpense st "e1")
      = .ok { c8Expense with currency := "" } ∧
    ({ c8Expense with currency := "" } : Expense).currency ≠ c8Expense.currency :=
  ⟨rfl, rfl, by decide⟩

/-! ## Claim C2 -/

def c2ExpenseA : Expense :=
  { id := "a1", recurringID := "", name := "Coffee", tags := [],
    category := "Food", amount := 4, currency := "eur",
    date := ⟨2024, 5, 2, 0⟩ }

def c2ExpenseB : Expense :=
  { id := "a2", recurringID := "", name := "Bagel", tags := [],
    category := "Food", amount := 3, currency := "eur",
    date := ⟨2024, 5, 3, 0⟩ }

/-- C2 (code bug): the two substrates are observably different through
the contract.  The same `addExpense` then `getExpense` sequence from the
initial states returns the stored currency `"eur"` on the file-backed
store but `""` on the relational store (whose read path drops the
currency column), and after the same two adds `getAllExpenses` returns
insertion order on the file-backed store but date-descending order on the
relational store. -/
theorem substrate_equivalence_divergence :
    (jsonGetExpense (jsonAddExpense "x" ⟨2024, 5, 4, 0⟩ jsonInitialState
        c2ExpenseA) "a1").map (fun e => e.currency) = .ok "eur" ∧
    Except.bind (dbAddExpense "x" ⟨2024, 5, 4, 0⟩ dbInitialState c2ExpenseA)
        (fun st => (dbGetExpense st "a1").map (fun e => e.currency))
      = .ok "" ∧
    (jsonGetAllExpenses (jsonAddExpense "y" ⟨2024, 5, 4, 0⟩
        (jsonAddExpense "x" ⟨2024, 5, 4, 0⟩ jsonInitialState c2ExpenseA)
        c2ExpenseB)).map (fun e => e.id) = ["a1", "a2"] ∧
    Except.bind (dbAddExpense "x" ⟨2024, 5, 4, 0⟩ dbInitialState c2ExpenseA)
        (fun st => Except.map (fun st2 => (dbGetAllExpenses st2).map (fun e => e.id))
          (dbAddExpense "y" ⟨2024, 5, 4, 0⟩ st c2ExpenseB))
      = .ok ["a2", "a1"] ∧
    ("eur" : String) ≠ "" ∧ (["a1", "a2"] : List String) ≠ ["a2", "a1"] :=
  ⟨rfl, rfl, rfl, rfl, by decide, by decide⟩

/-! ## Claim C9 -/

/-- Counterexample to C9 as stated: `AddMultipleExpenses` is a mutating
operation of the file-backed store whose body performs its
read-document → mutate → write-document cycle without acquiring the
store's lock at all. -/
theorem bulk_add_unlocked_counterexample :
    ("AddMultipleExpenses", traceAddMultipleExpenses) ∈ mutatingTraces ∧
    isLockedCycle traceAddMultipleExpenses = false := by decide

/-- C9 (amended): every mutating operation of the file-backed store other
than `AddMultipleExpenses` holds the exclusive write lock around its full
read-document → mutate-in-memory → write-document cycle;
`AddMultipleExpenses` performs that cycle with no lock acquisition of its
own (its in-store caller `AddRecurringExpense` already holds the write
lock around it), so only the locked operations are serialized against
each other. -/
theorem lock_discipline_amended :
    (∀ p ∈ mutatingTraces, p.1 ≠ "AddMultipleExpenses" →
      isLockedCycle p.2 = true) ∧
    traceAddMultipleExpenses.all FileAction.isFileOp = true ∧
    isLockedCycle traceAddRecurringExpense = true := by decide

/-- Witness for the amended C9 at a concrete locked operation. -/
theorem lock_discipline_amended_witness :
    isLockedCycle traceRemoveMultipleExpenses = true :=
  lock_discipline_amended.1
    ("RemoveMultipleExpenses", traceRemoveMultipleExpenses)
    (by decide) (by decide)

/-! ## Claim C10 -/

/-- Counterexample to C10 as stated: a currency update whose config write
fails at the substrate reports the failure, yet the defaults cache has
already been mutated. -/
theorem defaults_cache_counterexample :
    (jsonUpdateCurrencyDefaults true false
        { currency := "usd", start_date := "1" } "eur").1
      = .error "failed to write config file" ∧
    (jsonUpdateCurrencyDefaults true false
        { currency := "usd", start_date := "1" } "eur").2
      ≠ { currency := "usd", start_date := "1" } :=
  ⟨rfl, by decide⟩

/-- C10 (amended): the defaults cache changes exactly when the operation
reaches its config-write attempt — a failure before the write (validation
or config read) leaves the cache unchanged, but once the write is
attempted the cache holds the new values whether or not the write
succeeds; `databaseStore.saveConfig` updates the cache unconditionally
after issuing its upsert. -/
theorem defaults_cache_amended (readOk writeOk : Bool) (d : Defaults)
    (c : String) (n : Int) (cfg : Config) :
    ((supportedCurrencies.contains c = false ∨ readOk = false) →
      (jsonUpdateCurrencyDefaults readOk writeOk d c).2 = d) ∧
    (supportedCurrencies.contains c = true → readOk = true →
      (jsonUpdateCurrencyDefaults readOk writeOk d c).2
        = { d with currency := c }) ∧
    ((n < 1 ∨ 31 < n ∨ readOk = false) →
      (jsonUpdateStartDateDefaults readOk writeOk d n).2 = d) ∧
    (1 ≤ n → n ≤ 31 → readOk = true →
      (jsonUpdateStartDateDefaults readOk writeOk d n).2
        = { d with start_date := toString n }) ∧
    (dbSaveConfigDefaults writeOk d cfg).2
      = { d with currency := cfg.currency,
                 start_date := toString cfg.startDate } := by
  refine ⟨?_, ?_, ?_, ?_, rfl⟩
  · intro h
    unfold jsonUpdateCurrencyDefaults
    rcases h with h | h
    · rw [h]; rfl
    · rw [h]
      cases hc : supportedCurrencies.contains c <;> rfl
  · intro hc hr
    unfold jsonUpdateCurrencyDefaults
    rw [hc, hr]
    rfl
  · intro h
    unfold jsonUpdateStartDateDefaults
    rcases h with h | h | h
    · have hg : (decide (n < 1) || decide (31 < n)) = true := by
        simp only [Bool.or_eq_true, decide_eq_true_eq]; omega
      rw [hg]; rfl
    · have hg : (decide (n < 1) || decide (31 < n)) = true := by
        simp only [Bool.or_eq_true, decide_eq_true_eq]; omega
      rw [hg]; rfl
    · rw [h]
      cases hg : (decide (n < 1) || decide (31 < n)) <;> rfl
  · intro h1 h2 hr
    unfold jsonUpdateStartDateDefaults
    have hg : (decide (n < 1) || decide (31 < n)) = false := by
      simp; omega
    rw [hg, hr]
    rfl

/-- Witness for the amended C10, at the spec's concrete rejected-update
scenario: updating the currency to `"xyz"` is rejected and the cached
default is unchanged. -/
theorem defaults_cache_amended_witness :
    (jsonUpdateCurrencyDefaults true true
        { currency := "usd", start_date := "1" } "xyz").2
      = { currency := "usd", start_date := "1" } :=
  (defaults_cache_amended true true { currency := "usd", start_date := "1" }
      "xyz" 5 Config.setBaseConfig).1
    (Or.inl (by decide))

end ExpenseOwl
